import Mathlib

/-
  Verification development for the kaledh4/monorepo data-aggregation scripts.

  The Python sources are shallowly embedded:
  * pandas/numpy float series are modelled by lists over `F`, a four-state
    IEEE-style value (finite rational, +inf, -inf, NaN); rational arithmetic
    stands in for double arithmetic,
  * third-party calls (HTTP, yfinance, scipy spline fitting, np.polyfit,
    np.log/np.exp, datetime parsing) are oracle parameters: the theorems
    quantify over every outcome the library could produce,
  * fallible Python code is embedded in `Except String`, where `.error e`
    models a raised exception with message `e`,
  * JSON values are the inductive `Json`; `json.dumps`/`json.loads` of a
    JSON-representable dict is modelled as storing the `Json` value itself,
    with `none` standing for an unparseable file.
-/

/-- Four-state IEEE-style float: finite rational, +infinity, -infinity, NaN.
Models the numpy/pandas double values flowing through the scripts. -/
inductive F where
  | fin (q : ℚ)
  | pinf
  | ninf
  | nan
deriving DecidableEq, Repr

/-- Negation. -/
def F.neg : F → F
  | .fin q => .fin (-q)
  | .pinf => .ninf
  | .ninf => .pinf
  | .nan => .nan

/-- IEEE addition: NaN absorbs, opposite infinities give NaN. -/
def F.add : F → F → F
  | .fin a, .fin b => .fin (a + b)
  | .fin _, .pinf => .pinf
  | .fin _, .ninf => .ninf
  | .pinf, .fin _ => .pinf
  | .ninf, .fin _ => .ninf
  | .pinf, .pinf => .pinf
  | .ninf, .ninf => .ninf
  | _, _ => .nan

/-- IEEE subtraction. -/
def F.sub (a b : F) : F := a.add b.neg

/-- IEEE multiplication: NaN absorbs, 0 * inf = NaN, signs propagate. -/
def F.mul : F → F → F
  | .fin a, .fin b => .fin (a * b)
  | .fin a, .pinf => if a = 0 then .nan else if 0 < a then .pinf else .ninf
  | .fin a, .ninf => if a = 0 then .nan else if 0 < a then .ninf else .pinf
  | .pinf, .fin b => if b = 0 then .nan else if 0 < b then .pinf else .ninf
  | .ninf, .fin b => if b = 0 then .nan else if 0 < b then .ninf else .pinf
  | .pinf, .pinf => .pinf
  | .ninf, .ninf => .pinf
  | .pinf, .ninf => .ninf
  | .ninf, .pinf => .ninf
  | _, _ => .nan

/-- IEEE division.  Finite / 0 follows numpy with a positive zero divisor:
`0/0 = NaN`, `a/0 = ±inf` by the sign of `a` (ℚ has no signed zero; every
divisor of zero arising in these scripts is a positive zero). -/
def F.div : F → F → F
  | .fin a, .fin b =>
      if b = 0 then (if a = 0 then .nan else if 0 < a then .pinf else .ninf)
      else .fin (a / b)
  | .fin _, .pinf => .fin 0
  | .fin _, .ninf => .fin 0
  | .pinf, .fin b => if 0 ≤ b then .pinf else .ninf
  | .ninf, .fin b => if 0 ≤ b then .ninf else .pinf
  | _, _ => .nan

/-- IEEE strict less-than as a Bool: any comparison with NaN is false. -/
def F.flt : F → F → Bool
  | .fin a, .fin b => decide (a < b)
  | .fin _, .pinf => true
  | .ninf, .fin _ => true
  | .ninf, .pinf => true
  | _, _ => false

/-- IEEE greater-than. -/
def F.fgt (a b : F) : Bool := F.flt b a

/-- Is this value NaN? -/
def F.isNan : F → Bool
  | .nan => true
  | _ => false

instance : Add F := ⟨F.add⟩
instance : Sub F := ⟨F.sub⟩
instance : Mul F := ⟨F.mul⟩
instance : Div F := ⟨F.div⟩
instance : Neg F := ⟨F.neg⟩

/-- pandas `Series.clip(0, 1)`: finite values are clamped, infinities clamp to
the bounds, NaN passes through. -/
def F.clip01 : F → F
  | .fin q => .fin (max 0 (min 1 q))
  | .pinf => .fin 1
  | .ninf => .fin 0
  | .nan => .nan

/-- Minimum of two non-NaN values with the IEEE order (used inside rolling
windows after NaN values have been filtered out). -/
def F.minv (a b : F) : F := if F.flt b a then b else a

/-- Maximum of two non-NaN values. -/
def F.maxv (a b : F) : F := if F.flt a b then b else a

/-
  pandas Series primitives over `List F`.
-/

/-- Tail step of `Series.diff`: each element minus its predecessor. -/
def diffAux : F → List F → List F
  | _, [] => []
  | prev, x :: xs => (x.sub prev) :: diffAux x xs

/-- `Series.diff()`: NaN at position 0, then adjacent differences. -/
def diff : List F → List F
  | [] => []
  | x :: xs => F.nan :: diffAux x xs

/-- `delta.where(delta > 0, 0)` applied pointwise: keep the value where it is
strictly positive, else 0.  A NaN compares false and is replaced by 0. -/
def keepPos (d : F) : F := if (F.fin 0).flt d then d else F.fin 0

/-- `-delta.where(delta < 0, 0)` applied pointwise: keep the value where it is
strictly negative, else 0, then negate. -/
def keepNegNeg (d : F) : F := F.neg (if d.flt (F.fin 0) then d else F.fin 0)

/-- Mean aggregator over the non-NaN values of a rolling window
(`sum / count`, the pandas rolling mean over valid observations). -/
def meanAgg (w : List F) : F := (w.foldl F.add (F.fin 0)).div (F.fin w.length)

/-- Min aggregator over the non-NaN values of a rolling window. -/
def minAgg (w : List F) : F :=
  match w with
  | [] => F.nan
  | x :: xs => xs.foldl F.minv x

/-- Max aggregator over the non-NaN values of a rolling window. -/
def maxAgg (w : List F) : F :=
  match w with
  | [] => F.nan
  | x :: xs => xs.foldl F.maxv x

/-- `Series.rolling(window = n, min_periods = minp).agg()`: at index `i` the
window is the last `min (i+1) n` elements; NaN observations are dropped and
the aggregate is NaN unless at least `minp` valid observations remain. -/
def rollApply (n minp : ℕ) (agg : List F → F) (l : List F) : List F :=
  (List.range l.length).map (fun i =>
    let w := ((l.take (i + 1)).drop (i + 1 - n)).filter (fun x => !x.isNan)
    if w.length < minp then F.nan else agg w)

/-- `Series.rolling(window = n).mean()` (default `min_periods = n`). -/
def rollingMean (n : ℕ) (l : List F) : List F := rollApply n n meanAgg l

/-- Tail step of `ewm(adjust = False).mean()`. -/
def ewmAux (alpha : ℚ) : F → List F → List F
  | _, [] => []
  | prev, x :: xs =>
    ((F.fin (1 - alpha)).mul prev).add ((F.fin alpha).mul x) ::
      ewmAux alpha (((F.fin (1 - alpha)).mul prev).add ((F.fin alpha).mul x)) xs

/-- `Series.ewm(span, adjust = False).mean()` on a NaN-free series:
`y 0 = x 0`, `y t = (1 - alpha) * y (t-1) + alpha * x t`. -/
def ewmAdjFalse (alpha : ℚ) : List F → List F
  | [] => []
  | x :: xs => x :: ewmAux alpha x xs

/-
  src/apps/economic-compass/app/technical_analysis.py
-/

namespace TA

/-- `technical_analysis.rsi(series, length=14)`:
delta, rolling-mean gains and losses, `100 - 100 / (1 + gain/loss)`. -/
def rsi (series : List F) (length : ℕ := 14) : List F :=
  let delta := diff series
  let gain := rollingMean length (delta.map keepPos)
  let loss := rollingMean length (delta.map keepNegNeg)
  let rs := List.zipWith F.div gain loss
  rs.map (fun r => (F.fin 100).sub ((F.fin 100).div ((F.fin 1).add r)))

/-- `technical_analysis.sma(series, length)`. -/
def sma (series : List F) (length : ℕ) : List F := rollingMean length series

/-- `technical_analysis.ema(series, length)`: `ewm(span=length, adjust=False)`,
so `alpha = 2 / (length + 1)`. -/
def ema (series : List F) (length : ℕ) : List F :=
  ewmAdjFalse (2 / (length + 1)) series

end TA

/-
  src/tools/fetchers/unified_fetcher.py, MarketFetcher._calculate_rsi
-/

namespace MarketFetcher

/-- `MarketFetcher._calculate_rsi(prices, period=14)` — same computation as
`technical_analysis.rsi`, embedded separately from its own source lines. -/
def calculate_rsi (prices : List F) (period : ℕ := 14) : List F :=
  let delta := diff prices
  let gain := rollingMean period (delta.map keepPos)
  let loss := rollingMean period (delta.map keepNegNeg)
  let rs := List.zipWith F.div gain loss
  rs.map (fun r => (F.fin 100).sub ((F.fin 100).div ((F.fin 1).add r)))

end MarketFetcher

/-
  src/tools/fetchers/unified_fetcher_v2.py, inline RSI block of
  fetch_crypto_indicators (window fixed at 14).
-/

namespace V2

/-- The inline RSI computation of `fetch_crypto_indicators` on the Close
series: identical formula with a hard-coded 14-element window. -/
def crypto_rsi (close : List F) : List F :=
  let delta := diff close
  let gain := rollingMean 14 (delta.map keepPos)
  let loss := rollingMean 14 (delta.map keepNegNeg)
  let rs := List.zipWith F.div gain loss
  rs.map (fun r => (F.fin 100).sub ((F.fin 100).div ((F.fin 1).add r)))

end V2

/-
  Claim-side (spec-worded) companions for C4: mean of the last n values,
  and the claimed EMA recursion on plain rationals.
-/

/-- The arithmetic mean of the `n` most recent values at index `i`
(claim C4 wording): mean of `xs[i-n+1 .. i]`. -/
def meanSpec (xs : List ℚ) (n i : ℕ) : ℚ :=
  ((xs.take (i + 1)).drop (i + 1 - n)).sum / n

/-- Tail step of the claimed EMA recursion. -/
def emaSpecAux (a : ℚ) : ℚ → List ℚ → List ℚ
  | _, [] => []
  | prev, x :: xs => (a * x + (1 - a) * prev) :: emaSpecAux a (a * x + (1 - a) * prev) xs

/-- The claimed EMA recursion (claim C4 wording): `e 0 = x 0`,
`e t = a * x t + (1 - a) * e (t-1)`. -/
def emaSpec (a : ℚ) : List ℚ → List ℚ
  | [] => []
  | x :: xs => x :: emaSpecAux a x xs

/-- Positive parts of the price deltas, with 0 at index 0 (the NaN delta at
index 0 compares false in `where` and is replaced by 0). -/
def gainSrc (xs : List ℚ) : List ℚ :=
  match xs with
  | [] => []
  | _ :: _ => 0 :: (List.zipWith (fun b a => if a < b then b - a else 0) xs.tail xs)

/-- Negated negative parts of the price deltas, with 0 at index 0. -/
def lossSrc (xs : List ℚ) : List ℚ :=
  match xs with
  | [] => []
  | _ :: _ => 0 :: (List.zipWith (fun b a => if b < a then a - b else 0) xs.tail xs)

/-
  JSON values.  `json.dumps` followed by `json.loads` of a JSON-representable
  dict is the identity, so files written by the scripts are modelled as
  holding the `Json` value itself; `Option Json` models a file body that may
  fail `json.loads` (`none` = unparseable bytes).
-/

/-- JSON values. -/
inductive Json where
  | null
  | bool (b : Bool)
  | num (q : ℚ)
  | str (s : String)
  | arr (l : List Json)
  | obj (kvs : List (String × Json))

/-- `dict.get(key)` on a JSON object (`none` when absent or not an object). -/
def jsonGet (j : Json) (key : String) : Option Json :=
  match j with
  | .obj kvs => (kvs.find? (fun kv => kv.1 = key)).map (fun kv => kv.2)
  | _ => none

/-- Python `==` against a string literal: true only for an equal JSON string. -/
def jsonEqStr (j : Json) (s : String) : Bool :=
  match j with
  | .str t => t = s
  | _ => false

/-
  src/tools/fetchers/unified_fetcher.py — FetchResult and BaseFetcher cache.
-/

/-- `FetchResult`: the tagged success/failure record every fetcher returns.
`data` is `Any` in Python, hence a type parameter here. -/
structure FetchResult (α : Type) where
  success : Bool
  data : α
  source : String
  fetched_at : String
  error : Option String := none

/-- The cache directory as a map from file name to file state:
`none` = file absent, `some none` = present but unparseable,
`some (some j)` = parses to the JSON value `j`. -/
def CacheFS : Type := String → Option (Option Json)

/-- `BaseFetcher.set_cache(key, data)`: write `json.dumps(data)` to
`{key}.json`. -/
def set_cache (fs : CacheFS) (key : String) (payload : Json) : CacheFS :=
  fun name => if name = key ++ ".json" then some (some payload) else fs name

/-- `data.get('fetched_at', '2000-01-01')` followed by `.replace`: the string
timestamp when the payload is an object with a string field, the default when
the key is absent, `none` when `.get` or `.replace` raises (non-dict payload
or non-string field). -/
def fetchedAtStr (data : Json) : Option String :=
  match data with
  | Json.obj kvs =>
    match (kvs.find? (fun kv => kv.1 = "fetched_at")).map (fun kv => kv.2) with
    | some (Json.str s) => some s
    | some _ => none
    | none => some "2000-01-01"
  | _ => none

/-- `BaseFetcher.get_cached(key, max_age_seconds)`.  `parseTs` models
`datetime.fromisoformat` composed with `.replace('Z', '+00:00')` (`none` = the
parse raises); `now` is `datetime.now(timezone.utc)` in epoch seconds.  Any
exception inside the `try` yields `None`, as does a stale timestamp. -/
def get_cached (parseTs : String → Option ℤ) (now : ℤ) (fs : CacheFS)
    (key : String) (maxAge : ℤ) : Option Json :=
  match fs (key ++ ".json") with
  | none => none
  | some none => none
  | some (some data) =>
    match fetchedAtStr data with
    | none => none
    | some s =>
      match parseTs s with
      | none => none
      | some t => if now - t < maxAge then some data else none

/-
  src/tools/fetchers/unified_fetcher.py, save_data — history update for
  the-shield (lines 1262-1273).
-/

/-- The last `n` elements of a list (`history[-30:]` with `n = 30`). -/
def lastN (n : ℕ) (l : List Json) : List Json := l.drop (l.length - n)

/-- The history-file update of `save_data('the-shield', data)`: read
`history.json` (absent file starts `[]`), append the new record, keep the last
30 entries, write back.  `none` = the `try` block raised (unparseable file or
a parsed non-list, whose `.append` raises) and nothing was written. -/
def update_history (file : Option (Option Json)) (d : Json) : Option (List Json) :=
  match file with
  | none => some (lastN 30 ([] ++ [d]))
  | some none => none
  | some (some (Json.arr l)) => some (lastN 30 (l ++ [d]))
  | some (some _) => none

/-
  src/tools/fetchers/unified_fetcher.py, AIFetcher.call_ai — model table,
  fallback loop, and the caller-side brace parsing of fetch_for_crash_detector.
-/

/-- The outcome of one `requests.post` to the chat-completions endpoint:
either the call raises, or it returns a status code and a body
(`none` body = `response.json()` raises). -/
inductive PostOutcome where
  | exc (e : String)
  | resp (status : ℕ) (body : Option Json)

/-- `AIFetcher.MODELS`: friendly key → OpenRouter model id. -/
def MODELS : List (String × String) :=
  [ ("llama-70b", "meta-llama/llama-3.3-70b-instruct:free"),
    ("olmo-32b", "allenai/olmo-3-32b-think:free"),
    ("mistral-24b", "mistralai/mistral-small-3.1-24b-instruct:free"),
    ("dolphin-24b", "cognitivecomputations/dolphin-mistral-24b-venice-edition:free"),
    ("qwen-235b", "qwen/qwen3-235b-a22b:free"),
    ("glm-4", "z-ai/glm-4.5-air:free"),
    ("tongyi-30b", "alibaba/tongyi-deepresearch-30b-a3b:free"),
    ("nemotron-12b", "nvidia/nemotron-nano-12b-v2-vl:free"),
    ("chimera", "tngtech/tng-r1t-chimera:free"),
    ("kimi", "moonshotai/kimi-k2:free"),
    ("longcat", "meituan/longcat-flash-chat:free"),
    ("gemma-2b", "google/gemma-3n-e2b-it:free"),
    ("olmo-32b-alt", "allenai/olmo-32b-think:free") ]

/-- `self.MODELS.get(model_key, model_key)`. -/
def modelsGet (k : String) : String :=
  (((MODELS.find? (fun kv => kv.1 = k)).map (fun kv => kv.2)).getD k)

/-- The content of `result['choices'][0]['message']['content']` when present. -/
def firstChoiceContent (body : Json) : Option String :=
  match jsonGet body "choices" with
  | some (Json.arr (c :: _)) =>
    match jsonGet c "message" with
    | some m =>
      match jsonGet m "content" with
      | some (Json.str s) => some s
      | _ => none
    | _ => none
  | _ => none

/-- One iteration of the `call_ai` fallback loop for a single model key:
POST, `raise_for_status()`, `response.json()`, then require a non-empty
`choices`; every raise is caught by the per-model `except`. -/
def tryModel (post : String → PostOutcome) (key : String) : Except String String :=
  match post (modelsGet key) with
  | .exc e => .error e
  | .resp status body =>
    if 400 ≤ status ∧ status < 600 then .error ("HTTPError: " ++ toString status)
    else
      match body with
      | none => .error "JSONDecodeError"
      | some b =>
        match jsonGet b "choices" with
        | some (Json.arr (_ :: _)) =>
          match firstChoiceContent b with
          | some content => .ok content
          | none => .error "KeyError"
        | _ => .error "No choices in response"

/-- The `data` dict of a `call_ai` result: `{'content': ..., 'model': ...}`
(`model` is absent in the failure dict). -/
structure AIData where
  content : String
  model : Option String

/-- The fallback loop of `call_ai`, threading `last_error`. -/
def callLoop (post : String → PostOutcome) (now : String) :
    Option String → List String → FetchResult AIData
  | lastError, [] =>
    { success := false
      data := { content := "AI analysis temporarily unavailable.", model := none }
      source := "openrouter", fetched_at := now
      error := some (lastError.getD "None") }
  | _lastError, m :: rest =>
    match tryModel post m with
    | .ok content =>
      { success := true, data := { content := content, model := some m }
        source := "openrouter", fetched_at := now, error := none }
    | .error e => callLoop post now (some e) rest

/-- `AIFetcher.call_ai(prompt, ..., models, ...)`: missing API key short-cut,
then the fallback loop over the model keys. -/
def call_ai (apiKey : Option String) (post : String → PostOutcome)
    (models : List String) (now : String) : FetchResult AIData :=
  match apiKey with
  | none =>
    { success := false
      data := { content := "AI analysis temporarily unavailable.", model := none }
      source := "openrouter", fetched_at := now
      error := some "API key not configured" }
  | some _ => callLoop post now none models

/-- The substring of `s` from the first `'{'` to the last `'}'` inclusive
(`content.find('{')` / `content.rfind('}') + 1`); `none` when the slice is
empty or a brace is missing — the caller-side guard of
`fetch_for_crash_detector` (lines 742-744). -/
def braceSub (s : String) : Option String :=
  let cs := s.toList
  match cs.indexOf? '{', cs.reverse.indexOf? '}' with
  | some i, some jr =>
    let j := cs.length - 1 - jr
    if i < j + 1 then some (String.mk ((cs.drop i).take (j + 1 - i))) else none
  | _, _ => none

/-- Claim C1's acceptance test for one model, as the claim words it: the POST
returns status 200 and the brace-substring of the content parses as JSON
(`parse` models `json.loads` on that substring). -/
def claimPasses (parse : String → Option Json) (post : String → PostOutcome)
    (key : String) : Bool :=
  match post (modelsGet key) with
  | .exc _ => false
  | .resp status body =>
    if status = 200 then
      match body with
      | some b =>
        match firstChoiceContent b with
        | some content =>
          match braceSub content with
          | some sub => (parse sub).isSome
          | none => false
        | none => false
      | none => false
    else false

/-- Claim-side amended behaviour: the first model whose POST raises no error,
has a non-error status, and whose JSON body has a non-empty `choices` list. -/
def firstOk (post : String → PostOutcome) : List String → Option (String × String)
  | [] => none
  | m :: rest =>
    match tryModel post m with
    | .ok c => some (m, c)
    | .error _ => firstOk post rest

/-- The error of the last failing model (the value `last_error` holds after a
full loop in which no model succeeded). -/
def lastErrFold (post : String → PostOutcome) (acc : Option String)
    (models : List String) : Option String :=
  (models.map (tryModel post)).foldl
    (fun a r => match r with | .error e => some e | .ok _ => a) acc

/-- Shorthand: the fold started from the initial `last_error = None`. -/
def lastTryErr (post : String → PostOutcome) (models : List String) : Option String :=
  lastErrFold post none models

/-- The amended C1 behaviour as a standalone description: first model passing
the HTTP + choices test wins; otherwise failure carrying `str(last_error)`. -/
def call_ai_amended (post : String → PostOutcome) (models : List String)
    (now : String) : FetchResult AIData :=
  match firstOk post models with
  | some (m, c) =>
    { success := true, data := { content := c, model := some m }
      source := "openrouter", fetched_at := now, error := none }
  | none =>
    { success := false
      data := { content := "AI analysis temporarily unavailable.", model := none }
      source := "openrouter", fetched_at := now
      error := some ((lastTryErr post models).getD "None") }

/-
  src/tools/fetchers/unified_fetcher.py — the five wrapped fetchers of C3.
  Third-party calls appear as `Except String` oracle arguments (`.error` = the
  library call raised); a cache hit appears as an optional cached entry of the
  shape `set_cache` writes (`{'data': ..., 'fetched_at': ...}`).
-/

/-- A fresh-enough cache entry as stored by the fetchers' `set_cache` calls. -/
structure CEntry (α : Type) where
  data : α
  fetched_at : String

/-- The successful payload of `MarketFetcher.fetch_ticker`. -/
structure TickerData where
  ticker : String
  price : ℚ
  period : String

/-- The `try` body of `fetch_ticker`: optional `fast_info` price (its inner
`try/except: pass` absorbs a raise), then `history` fallback taking the last
Close; re-raises propagate to the outer handler. -/
def fetch_ticker_try (fastInfo : Except String (Option ℚ))
    (history : Except String (List ℚ)) (now ticker period : String) :
    Except String (FetchResult (Option TickerData)) := do
  let p1 : Option ℚ := match fastInfo with | .ok v => v | .error _ => none
  let price : Option ℚ ←
    match p1 with
    | some p => pure (some p)
    | none => do
      let hist ← history
      pure hist.getLast?
  match price with
  | some p =>
    pure { success := true, data := some { ticker := ticker, price := p, period := period }
           source := "yfinance", fetched_at := now, error := none }
  | none =>
    pure { success := false, data := none, source := "yfinance", fetched_at := now
           error := some "No data found" }

/-- `MarketFetcher.fetch_ticker(ticker, period)` (the cache write on the
success path only mutates the cache, modelled separately by `set_cache`). -/
def fetch_ticker (yfAvailable : Bool) (cached : Option (CEntry TickerData))
    (fastInfo : Except String (Option ℚ)) (history : Except String (List ℚ))
    (now ticker period : String) : FetchResult (Option TickerData) :=
  if !yfAvailable then
    { success := false, data := none, source := "yfinance", fetched_at := now
      error := some "yfinance not available" }
  else
    match cached with
    | some c =>
      { success := true, data := some c.data, source := "yfinance"
        fetched_at := c.fetched_at, error := none }
    | none =>
      match fetch_ticker_try fastInfo history now ticker period with
      | .ok r => r
      | .error e =>
        { success := false, data := none, source := "yfinance", fetched_at := now
          error := some e }

/-- `TreasuryFetcher.fetch_auction(term, security_type)`: GET + JSON decode as
one oracle, then `data['data'][0]` with `'data' in data and len(...) > 0`. -/
def fetch_auction (requestsAvailable : Bool) (cached : Option (CEntry Json))
    (resp : Except String Json) (now : String) : FetchResult (Option Json) :=
  if !requestsAvailable then
    { success := false, data := none, source := "treasury", fetched_at := now
      error := some "requests not available" }
  else
    match cached with
    | some c =>
      { success := true, data := some c.data, source := "treasury"
        fetched_at := c.fetched_at, error := none }
    | none =>
      match resp with
      | .error e =>
        { success := false, data := none, source := "treasury", fetched_at := now
          error := some e }
      | .ok j =>
        match jsonGet j "data" with
        | some (Json.arr (x :: _)) =>
          { success := true, data := some x, source := "treasury", fetched_at := now
            error := none }
        | some (Json.arr []) =>
          { success := false, data := none, source := "treasury", fetched_at := now
            error := some "No data" }
        | some _ =>
          -- len() > 0 on a non-list then [0] raises; caught by the outer except
          { success := false, data := none, source := "treasury", fetched_at := now
            error := some "KeyError: 0" }
        | none =>
          { success := false, data := none, source := "treasury", fetched_at := now
            error := some "No data" }

/-- One fetched news article. -/
structure Article where
  title : String
  source : String
  url : String
  publishedAt : String

/-- The per-feed loop body of `fetch_rss`: each feed is parsed inside its own
`try/except: continue`, taking the first five entries of each success. -/
def collectFeeds (feedResults : List (Except String (List Article))) : List Article :=
  (feedResults.map (fun r => match r with | .ok l => l.take 5 | .error _ => [])).flatten

/-- `NewsFetcher.fetch_rss(feeds)`.  Without feedparser the
`_fetch_rss_simple` fallback runs (per-feed errors skipped, first ten kept);
with feedparser the cache is consulted and the per-feed loop absorbs every
feed error, so the `try` body cannot raise past it. -/
def fetch_rss (feedparserAvailable requestsAvailable : Bool)
    (cached : Option (CEntry (List Article)))
    (feedResults : List (Except String (List Article))) (now : String) :
    FetchResult (List Article) :=
  if !feedparserAvailable then
    if !requestsAvailable then
      { success := false, data := [], source := "rss", fetched_at := now
        error := some "No HTTP available" }
    else
      { success := true, data := (collectFeeds feedResults).take 10, source := "rss"
        fetched_at := now, error := none }
  else
    match cached with
    | some c =>
      { success := true, data := c.data, source := "rss", fetched_at := c.fetched_at
        error := none }
    | none =>
      { success := true, data := (collectFeeds feedResults).take 15, source := "rss"
        fetched_at := now, error := none }

/-- The successful payload of `CryptoFetcher.fetch_fear_and_greed`. -/
structure FngData where
  value : ℤ
  value_class : String
  timestamp : Option String

/-- Extraction of `data['data'][0]` fields incl. `int(...)`; any shape
mismatch raises and is caught by the outer except. -/
def fngExtract (j : Json) : Except String FngData :=
  match jsonGet j "data" with
  | some (Json.arr (x :: _)) =>
    match jsonGet x "value", jsonGet x "value_classification", jsonGet x "timestamp" with
    | some v, some (Json.str c), ts =>
      match v with
      | Json.num q =>
        if q.den = 1 then
          .ok { value := q.num, value_class := c
                timestamp := match ts with | some (Json.str t) => some t | _ => none }
        else .error "ValueError: invalid literal for int()"
      | Json.str s =>
        match s.toInt? with
        | some n =>
          .ok { value := n, value_class := c
                timestamp := match ts with | some (Json.str t) => some t | _ => none }
        | none => .error "ValueError: invalid literal for int()"
      | _ => .error "TypeError: int() argument"
    | _, _, _ => .error "KeyError"
  | _ => .error "KeyError"

/-- `CryptoFetcher.fetch_fear_and_greed()` — on failure the data dict still
carries the neutral placeholder `{'value': 50, 'value_classification': 'Neutral'}`. -/
def fetch_fear_and_greed (requestsAvailable : Bool) (cached : Option (CEntry FngData))
    (resp : Except String Json) (now : String) : FetchResult FngData :=
  if !requestsAvailable then
    { success := false, data := { value := 50, value_class := "Neutral", timestamp := none }
      source := "fng", fetched_at := now, error := some "requests not available" }
  else
    match cached with
    | some c =>
      { success := true, data := c.data, source := "fng", fetched_at := c.fetched_at
        error := none }
    | none =>
      match resp with
      | .error e =>
        { success := false, data := { value := 50, value_class := "Neutral", timestamp := none }
          source := "fng", fetched_at := now, error := some e }
      | .ok j =>
        match fngExtract j with
        | .ok d =>
          { success := true, data := d, source := "fng", fetched_at := now, error := none }
        | .error e =>
          { success := false, data := { value := 50, value_class := "Neutral", timestamp := none }
            source := "fng", fetched_at := now, error := some e }

/-- One arXiv paper summary. -/
structure Paper where
  title : String
  summary : String
  date : String
  link : String

/-- The successful payload of `ArxivFetcher.fetch_papers`. -/
structure ArxivData where
  total : ℕ
  papers : List Paper
  query : String

/-- `ArxivFetcher.fetch_papers(query, max_results)`: the urlopen + XML parse
+ entry extraction is one oracle (`.error` = any of it raised); on failure the
data dict carries `{'papers': [], 'total_results': 0}`. -/
def fetch_papers (cached : Option (CEntry ArxivData))
    (fetched : Except String (ℕ × List Paper)) (query : String) (now : String) :
    FetchResult ArxivData :=
  match cached with
  | some c =>
    { success := true, data := c.data, source := "arxiv", fetched_at := c.fetched_at
      error := none }
  | none =>
    match fetched with
    | .error e =>
      { success := false, data := { total := 0, papers := [], query := query }
        source := "arxiv", fetched_at := now, error := some e }
    | .ok (total, papers) =>
      { success := true, data := { total := total, papers := papers, query := query }
        source := "arxiv", fetched_at := now, error := none }

/-
  src/tools/fetchers/unified_fetcher_v2.py — the dashboard analysis functions
  of C2.  The in-memory DataStore is `String → Option Json`
  (`store.get` returns `None` for a key never stored); the v2 `call_ai`
  returns `Optional[str]`, passed in as an oracle; `parseJ` models
  `json.loads` on the brace-substring.
-/

/-- The v2 in-memory `DataStore` read side. -/
def Store : Type := String → Option Json

/-- An f-string numeric format (`:.2f`, `:,.0f`) applied to a store value:
formats a number, raises `TypeError` on `None` (and on non-numeric values).
The rendered text itself is irrelevant to the claims and is `toString q`. -/
def fmtNum : Option Json → Except String String
  | some (Json.num q) => .ok (toString q)
  | some _ => .error "TypeError: unsupported format string"
  | none => .error "TypeError: unsupported format string passed to NoneType.__format__"

/-- `parsed.get(key, default)` through the v2 brace-parse block: on a parse
failure or a non-object the `except: pass` keeps the default. -/
def parsedGetD (parsed : Option Json) (key : String) (dflt : Json) : Json :=
  match parsed with
  | some j => (jsonGet j key).getD dflt
  | none => dflt

/-- `if result:` then `json.loads(result[start:end])` where
`start = result.find('{')`, `end = result.rfind('}') + 1` (the shared
parse block after every v2 `call_ai` call). -/
def v2Parse (parseJ : String → Option Json) (aiResult : Option String) : Option Json :=
  match aiResult with
  | none => none
  | some r => if r = "" then none else (braceSub r).bind parseJ

/-- The result dict of `analyze_the_map` (the fields the claims observe). -/
structure MapResult where
  stance_strength : ℚ
  volatility_risk : ℚ
  oil : ℚ
  dxy : ℚ
  gold : ℚ
  sp500 : ℚ
  tasi : ℚ
  treasury_10y : ℚ
  tasi_mood : Json
  drivers : Json
  ai_analysis : Json

/-- `analyze_the_map()` (v2 lines 696-782): reads six market prices from the
store, builds the prompt f-string — whose `:.2f` conversions raise `TypeError`
on a missing price — then parses the AI reply and scores. -/
def analyze_the_map (store : Store) (aiResult : Option String)
    (parseJ : String → Option Json) : Except String MapResult := do
  -- prompt f-string, format order: Oil, DXY, Gold, SP500, TASI, US 10Y
  let oil ← fmtNum (store "market.OIL") >>= fun _ => do
    match store "market.OIL" with | some (Json.num q) => pure q | _ => .error "unreachable"
  let dxy ← fmtNum (store "market.DXY") >>= fun _ => do
    match store "market.DXY" with | some (Json.num q) => pure q | _ => .error "unreachable"
  let gold ← fmtNum (store "market.GOLD") >>= fun _ => do
    match store "market.GOLD" with | some (Json.num q) => pure q | _ => .error "unreachable"
  let sp500 ← fmtNum (store "market.SP500") >>= fun _ => do
    match store "market.SP500" with | some (Json.num q) => pure q | _ => .error "unreachable"
  let tasi ← fmtNum (store "market.TASI") >>= fun _ => do
    match store "market.TASI" with | some (Json.num q) => pure q | _ => .error "unreachable"
  let tnx ← fmtNum (store "market.TNX") >>= fun _ => do
    match store "market.TNX" with | some (Json.num q) => pure q | _ => .error "unreachable"
  let parsed := v2Parse parseJ aiResult
  let tasi_mood := parsedGetD parsed "tasi_mood" (Json.str "Neutral")
  let drivers := parsedGetD parsed "drivers" (Json.arr [])
  let analysis := parsedGetD parsed "analysis" (Json.str "Analysis temporarily unavailable")
  let tasiScore : ℚ :=
    if jsonEqStr tasi_mood "Positive" then 8
    else if jsonEqStr tasi_mood "Negative" then 3 else 5
  let volRisk : ℚ :=
    (5 + (if tnx ≠ 0 ∧ 45/10 < tnx then 2 else 0)) + (if oil ≠ 0 ∧ 90 < oil then 1 else 0)
  pure { stance_strength := tasiScore, volatility_risk := min 10 volRisk
         oil := oil, dxy := dxy, gold := gold, sp500 := sp500, tasi := tasi
         treasury_10y := tnx, tasi_mood := tasi_mood, drivers := drivers
         ai_analysis := analysis }

/-- The result dict of `analyze_the_coin` (the fields the claims observe). -/
structure CoinResult where
  momentum_score : ℚ
  btc_price : ℚ
  eth_price : ℚ
  momentum : Json
  rsi : Option Json
  trend : Option Json
  fng_value : Option Json
  fng_class : Option Json
  ai_analysis : Json

/-- `analyze_the_coin()` (v2 lines 615-694): reads BTC/ETH prices and crypto
indicators from the store; `${btc_price:,.0f}` / `${eth_price:,.0f}` in the
prompt raise `TypeError` on a missing price, while `{btc_rsi or 50}` and the
other plain conversions never raise. -/
def analyze_the_coin (store : Store) (aiResult : Option String)
    (parseJ : String → Option Json) : Except String CoinResult := do
  let btc_rsi := store "crypto.BTC.rsi"
  let btc_trend := store "crypto.BTC.trend"
  let fng_value := store "fng.value"
  let fng_class := store "fng.classification"
  -- prompt f-string, format order: BTC price, ETH price, then plain fields
  let btc_price ← fmtNum (store "market.BTC") >>= fun _ => do
    match store "market.BTC" with | some (Json.num q) => pure q | _ => .error "unreachable"
  let eth_price ← fmtNum (store "market.ETH") >>= fun _ => do
    match store "market.ETH" with | some (Json.num q) => pure q | _ => .error "unreachable"
  let parsed := v2Parse parseJ aiResult
  let momentum := parsedGetD parsed "momentum" (Json.str "Neutral")
  let analysis := parsedGetD parsed "analysis" (Json.str "Analysis temporarily unavailable")
  let rsiVal : ℚ := match btc_rsi with
    | some (Json.num q) => if q = 0 then 50 else q
    | _ => 50
  let score : ℚ :=
    ((5 + (if jsonEqStr (btc_trend.getD Json.null) "Bullish" then 2 else 0))
      + (if 60 < rsiVal then 1 else 0))
      + (if (match fng_value with
             | some (Json.num q) => q ≠ 0 && decide (60 < q)
             | _ => false) then 1 else 0)
  pure { momentum_score := min 10 score, btc_price := btc_price, eth_price := eth_price
         momentum := momentum, rsi := btc_rsi, trend := btc_trend
         fng_value := fng_value, fng_class := fng_class, ai_analysis := analysis }

/-
  src/apps/hyper-analytical/macro_analysis.py, calculate_risk_metric
  (lines 149-195).  `np.log`/`np.exp` return doubles and never raise; they are
  oracle functions `qlog`/`qexp`.  `np.polyfit` is an oracle that may raise.
-/

/-- Pointwise ternary zip. -/
def zip3With (f : F → F → F → F) : List F → List F → List F → List F
  | x :: xs, y :: ys, z :: zs => f x y z :: zip3With f xs ys zs
  | _, _, _ => []

/-- The fallback triple of `calculate_risk_metric`. -/
def riskFallback : F × F × List F :=
  (F.fin (1/2), F.fin (1/2), List.replicate 52 (F.fin (1/2)))

/-- The dropna of `calculate_risk_metric`: rows whose Close is NaN drop out
(`df.copy().dropna()`, modelled on the Close column the function uses). -/
def riskData (close : List F) : List F := close.filter (fun x => !x.isNan)

/-- `log_time = np.log(np.arange(1, len(data) + 1))` through the `qlog`
oracle. -/
def riskLogTime (close : List F) (qlog : F → F) : List F :=
  (List.range (riskData close).length).map (fun i => qlog (F.fin (i + 1)))

/-- The `(log_time, log_price)` pairs handed to `np.polyfit`. -/
def riskFitInput (close : List F) (qlog : F → F) : List (F × F) :=
  List.zip (riskLogTime close qlog) ((riskData close).map qlog)

/-- The clipped risk series: fair value from the fitted regression, relative
deviation, 200-week rolling min/max with `min_periods = 50`, normalisation,
then `clip(0, 1)`. -/
def riskSeries (close : List F) (qlog qexp : F → F) (slope intercept : F) :
    List F :=
  let data := riskData close
  let fair := (riskLogTime close qlog).map (fun lt => qexp (intercept.add (slope.mul lt)))
  let dev := List.zipWith (fun c fv => (c.sub fv).div fv) data fair
  let rmin := rollApply 200 50 minAgg dev
  let rmax := rollApply 200 50 maxAgg dev
  (zip3With (fun d m M => (d.sub m).div (M.sub m)) dev rmin rmax).map F.clip01

/-- The tail of `calculate_risk_metric`: last-52 history with `fillna(0.5)`,
then `iloc[-1]` and `iloc[-2]` — an IndexError on fewer than two rows is
caught by the enclosing `except` and yields the fallback. -/
def riskFinish (risk : List F) : F × F × List F :=
  let history := (risk.drop (risk.length - 52)).map
    (fun x => if x.isNan then F.fin (1/2) else x)
  match risk.getLast?, risk.dropLast.getLast? with
  | some c, some p => (c, p, history)
  | _, _ => riskFallback

/-- `calculate_risk_metric(df)`: dropna, log-log regression through the
`polyfit` oracle, deviation from fair value, rolling normalisation,
`clip(0, 1)`, and the last-52 history; any raise inside the `try` yields the
fallback `(0.5, 0.5, [0.5] * 52)`. -/
def calculate_risk_metric (close : List F) (qlog qexp : F → F)
    (polyfit : List (F × F) → Except String (F × F)) : F × F × List F :=
  match polyfit (riskFitInput close qlog) with
  | .error _ => riskFallback
  | .ok (slope, intercept) => riskFinish (riskSeries close qlog qexp slope intercept)

/-- "current_risk lies in [0, 1]" as the claim reads it: a finite value
between 0 and 1 (NaN and infinities are not in the interval). -/
def inUnitB : F → Bool
  | .fin q => decide (0 ≤ q ∧ q ≤ 1)
  | _ => false

/-
  src/apps/economic-compass/build.py, build_site (lines 13-66).
  The file system is a list of directories and a path → content map;
  `get_all_data`, `generate_insight` and the Jinja template render are
  oracle parameters (`render` takes the raw data and the insight HTML;
  the timestamp fields of the context are elided).
-/

/-- A file-system snapshot: created directories and file contents. -/
structure FS where
  dirs : List String
  files : List (String × String)

/-- Write (create or overwrite) one file. -/
def fsWrite (p c : String) (fs : FS) : FS :=
  { dirs := fs.dirs, files := (p, c) :: fs.files.filter (fun kv => kv.1 ≠ p) }

/-- Read one file. -/
def fsRead (p : String) (fs : FS) : Option String :=
  (fs.files.find? (fun kv => kv.1 = p)).map (fun kv => kv.2)

/-- `os.makedirs(d)`. -/
def fsMkdir (d : String) (fs : FS) : FS :=
  { dirs := d :: fs.dirs, files := fs.files }

/-- `shutil.rmtree('public')` guarded by `os.path.exists` (removing a
non-existent tree is a no-op on this representation). -/
def rmtreePublic (fs : FS) : FS :=
  { dirs := fs.dirs.filter (fun d => !(d = "public" || d.startsWith "public/"))
    files := fs.files.filter (fun kv => !kv.1.startsWith "public/") }

/-- `os.path.exists(p)` for a directory path. -/
def dirExists (p : String) (fs : FS) : Bool :=
  fs.dirs.contains p || fs.files.any (fun kv => kv.1.startsWith (p ++ "/"))

/-- `shutil.copytree('app/static', 'public/static', dirs_exist_ok=True)`. -/
def copyStatic (fs : FS) : FS :=
  { dirs := fs.dirs
    files :=
      (fs.files.filterMap (fun kv =>
        if kv.1.startsWith "app/static/"
        then some ("public/static/" ++ kv.1.drop 11, kv.2) else none)) ++ fs.files }

/-- The fallback insight HTML of `build_site`. -/
def fallbackInsight : String := "<p>Error generating insight.</p>"

/-- `build_site()`: fetch via `get_all_data` (a raise returns immediately,
before any directory or file is touched), generate the insight via
`generate_insight` (a raise falls back to `fallbackInsight`), then rebuild
the `public` output directory and write `public/index.html`. -/
def build_site (fetch : Except String Json) (insight : Json → Except String String)
    (render : Json → String → String) (fs : FS) : FS :=
  match fetch with
  | .error _ => fs
  | .ok rawData =>
    let insightHtml :=
      match insight rawData with
      | .ok h => h
      | .error _ => fallbackInsight
    let fs1 := rmtreePublic fs
    let fs2 := fsMkdir "public" fs1
    let fs3 := fsMkdir "public/static" fs2
    let fs4 := if dirExists "app/static" fs3 then copyStatic fs3 else fs3
    fsWrite "public/index.html" (render rawData insightHtml) fs4

/-
  src/apps/intelligence-platform/market_analysis.py, calculate_pdf
  (lines 56-126).  `scipy.interpolate.splrep` (which may raise) and the
  second-derivative evaluation `splev(x, tck, der=2)` are oracles; the fitted
  `tck` is identified with the data the fit was given.
-/

/-- One option-chain row (the columns `calculate_pdf` touches). -/
structure OptRow where
  strike : ℚ
  bid : ℚ
  ask : ℚ
  volume : ℚ

/-- `(bid + ask) / 2`. -/
def midPrice (r : OptRow) : ℚ := (r.bid + r.ask) / 2

/-- The bad-data filter `(bid > 0) & (volume > 0)`. -/
def survives (r : OptRow) : Bool := decide (0 < r.bid) && decide (0 < r.volume)

/-- Insert a (strike, mid) pair into a strike-sorted list. -/
def insByStrike (p : ℚ × ℚ) : List (ℚ × ℚ) → List (ℚ × ℚ)
  | [] => [p]
  | q :: rest => if q.1 ≤ p.1 then q :: insByStrike p rest else p :: q :: rest

/-- `DataFrame.sort_values('strike')`. -/
def sortByStrike (l : List (ℚ × ℚ)) : List (ℚ × ℚ) := l.foldr insByStrike []

/-- Tail of `drop_duplicates(subset=['strike'])` on a sorted list: drop later
rows equal in strike to the kept row `p`. -/
def dedupAdjAux (p : ℚ × ℚ) : List (ℚ × ℚ) → List (ℚ × ℚ)
  | [] => [p]
  | q :: rest => if q.1 = p.1 then dedupAdjAux p rest else p :: dedupAdjAux q rest

/-- `drop_duplicates(subset=['strike'])` on a strike-sorted list (duplicates
are adjacent; the first row of each strike is kept). -/
def dedupAdj : List (ℚ × ℚ) → List (ℚ × ℚ)
  | [] => []
  | p :: rest => dedupAdjAux p rest

/-- The (strike, mid) table `data` built by `calculate_pdf`: bid/volume
filter, OTM split (`puts` strictly below the price, `calls` at or above),
concatenation, sort by strike, and strike de-duplication. -/
def pdfData (calls puts : List OptRow) (S : ℚ) : List (ℚ × ℚ) :=
  let calls2 := calls.filter survives
  let puts2 := puts.filter survives
  let otmCalls := calls2.filter (fun r => decide (S ≤ r.strike))
  let otmPuts := puts2.filter (fun r => decide (r.strike < S))
  dedupAdj (sortByStrike ((otmPuts ++ otmCalls).map (fun r => (r.strike, midPrice r))))

/-- `np.linspace(a, b, n)` (endpoints included; the denominator `n - 1` is
the float value numpy divides by). -/
def linspace (a b : ℚ) (n : ℕ) : List ℚ :=
  (List.range n).map (fun i : ℕ => a + (b - a) * (i : ℚ) / ((n : ℚ) - 1))

/-- `np.trapz(y, x)`: the trapezoidal rule over sample points. -/
def trapz : List ℚ → List ℚ → ℚ
  | y0 :: ytail, x0 :: xtail =>
    match ytail, xtail with
    | y1 :: _, x1 :: _ => (x1 - x0) * (y0 + y1) / 2 + trapz ytail xtail
    | _, _ => 0
  | _, _ => 0

/-- The evaluation grid and clamped raw curve of `calculate_pdf`:
`x_new = linspace(strike.min(), strike.max(), 1000)` and
`pdf_raw = np.maximum(splev(x_new, tck, der=2), 0)`. -/
def pdfCurve (splev2 : List (ℚ × ℚ) → ℚ → ℚ) (data : List (ℚ × ℚ)) :
    List ℚ × List ℚ :=
  let strikes := data.map (fun p => p.1)
  let a := strikes.foldl min (strikes.headD 0)
  let b := strikes.foldl max (strikes.headD 0)
  let xnew := linspace a b 1000
  (xnew, xnew.map (fun x => max (splev2 data x) 0))

/-- The raw area `np.trapz(pdf_raw, x_new)`. -/
def pdfArea (splev2 : List (ℚ × ℚ) → ℚ → ℚ) (data : List (ℚ × ℚ)) : ℚ :=
  trapz (pdfCurve splev2 data).2 (pdfCurve splev2 data).1

/-- `calculate_pdf(calls, puts, current_price)`: `(None, None)` on fewer than
ten rows, a spline-fit raise, or zero raw area; otherwise the grid and the
area-normalised non-negative curve. -/
def calculate_pdf (splrep : List (ℚ × ℚ) → Except String Unit)
    (splev2 : List (ℚ × ℚ) → ℚ → ℚ) (calls puts : List OptRow) (S : ℚ) :
    Option (List ℚ × List ℚ) :=
  let data := pdfData calls puts S
  if data.length < 10 then none
  else
    match splrep data with
    | .error _ => none
    | .ok _ =>
      let xnew := (pdfCurve splev2 data).1
      let pdfRaw := (pdfCurve splev2 data).2
      let area := pdfArea splev2 data
      if area = 0 then none
      else some (xnew, pdfRaw.map (fun y => y / area))

/-- The number of distinct strikes that survive the bid/volume filtering
(claim C10's wording of the degenerate-data condition, which ignores the
out-of-the-money split). -/
def distinctStrikesAfterFilter (calls puts : List OptRow) : ℕ :=
  (((calls.filter survives ++ puts.filter survives).map (fun r => r.strike)).dedup).length

/-- Claim C10's "(None, None) exactly when ..." right-hand side, as worded:
fewer than ten distinct strikes survive the bid/volume filtering, or the
spline fit fails, or the raw second-derivative curve has zero area. -/
def claimNoneB (splrep : List (ℚ × ℚ) → Except String Unit)
    (splev2 : List (ℚ × ℚ) → ℚ → ℚ) (calls puts : List OptRow) (S : ℚ) : Bool :=
  decide (distinctStrikesAfterFilter calls puts < 10)
  || (match splrep (pdfData calls puts S) with | .error _ => true | .ok _ => false)
  || decide (pdfArea splev2 (pdfData calls puts S) = 0)

/-- The amended right-hand side: the row count of the filtered, OTM-selected,
de-duplicated table is what the code actually tests. -/
def amendedNoneB (splrep : List (ℚ × ℚ) → Except String Unit)
    (splev2 : List (ℚ × ℚ) → ℚ → ℚ) (calls puts : List OptRow) (S : ℚ) : Bool :=
  decide ((pdfData calls puts S).length < 10)
  || (match splrep (pdfData calls puts S) with | .error _ => true | .ok _ => false)
  || decide (pdfArea splev2 (pdfData calls puts S) = 0)

/-
  Concrete instances used by the counterexample and witness theorems.
-/

/-- C1: POST oracle — model key "m1" answers 200 with content "hello"
(no braces anywhere), "m2" answers 200 with content "{}". -/
def c1post : String → PostOutcome := fun m =>
  if m = "m1" then
    .resp 200 (some (Json.obj
      [("choices", Json.arr
        [Json.obj [("message", Json.obj [("content", Json.str "hello")])]])]))
  else if m = "m2" then
    .resp 200 (some (Json.obj
      [("choices", Json.arr
        [Json.obj [("message", Json.obj [("content", Json.str "{}")])]])]))
  else .exc "unknown model"

/-- C1: `json.loads` restricted to the only substring it will see. -/
def c1parse : String → Option Json := fun s =>
  if s = "{}" then some (Json.obj []) else none

/-- C2: the v2 store after a run in which every market fetch succeeded except
`CL=F` (oil), so `market.OIL` was never stored. -/
def c2map_store : Store := fun k =>
  if k = "market.DXY" then some (Json.num 104)
  else if k = "market.GOLD" then some (Json.num 2650)
  else if k = "market.SP500" then some (Json.num 6000)
  else if k = "market.TASI" then some (Json.num 12000)
  else if k = "market.TNX" then some (Json.num (43/10))
  else if k = "market.BTC" then some (Json.num 97000)
  else if k = "market.ETH" then some (Json.num 3600)
  else none

/-- C2: the v2 store after a run in which the `BTC-USD` fetch failed, so
`market.BTC` was never stored. -/
def c2coin_store : Store := fun k =>
  if k = "market.ETH" then some (Json.num 3600)
  else if k = "crypto.BTC.rsi" then some (Json.num 55)
  else if k = "crypto.BTC.trend" then some (Json.str "Bullish")
  else if k = "fng.value" then some (Json.num 70)
  else if k = "fng.classification" then some (Json.str "Greed")
  else if k = "market.OIL" then some (Json.num 70)
  else none

/-- C5: a two-row dataframe (both Close values finite and positive). -/
def c5close : List F := [F.fin 1, F.fin 2]

/-- C5: a concrete stand-in for the float-valued `np.log`. -/
def c5log : F → F := fun _ => F.fin 0

/-- C5: a concrete stand-in for the float-valued `np.exp`. -/
def c5exp : F → F := fun _ => F.fin 1

/-- C5: a polyfit oracle that fits without raising. -/
def c5fit : List (F × F) → Except String (F × F) := fun _ => .ok (F.fin 1, F.fin 0)

/-- C6: an ISO-parse oracle defined at the one timestamp string in play. -/
def c6parse : String → Option ℤ := fun s => if s = "TS" then some 100 else none

/-- C6: a payload whose `fetched_at` field is the timestamp string "TS". -/
def c6payloadKvs : List (String × Json) :=
  [("data", Json.num 42), ("fetched_at", Json.str "TS")]

/-- C6: the empty cache directory. -/
def c6emptyFS : CacheFS := fun _ => none

/-- C6: a cache directory holding one unparseable file `k.json`. -/
def c6corruptFS : CacheFS := fun name => if name = "k.json" then some none else none

/-- C10: a spline-fit oracle that always fits. -/
def splrepOk : List (ℚ × ℚ) → Except String Unit := fun _ => .ok ()

/-- C10: a second-derivative oracle that evaluates to the constant 1. -/
def splev2One : List (ℚ × ℚ) → ℚ → ℚ := fun _ _ => 1

/-- C10 counterexample: two OTM puts at distinct strikes 0 and 999. -/
def c10xPuts : List OptRow :=
  [ { strike := 0, bid := 1, ask := 1, volume := 1 },
    { strike := 999, bid := 1, ask := 1, volume := 1 } ]

/-- C10 counterexample: ten calls at distinct strikes that survive the
bid/volume filter but sit below the current price, so the OTM split drops
every one of them. -/
def c10xCalls : List OptRow :=
  [1000, 1001, 1002, 1003, 1004, 1005, 1006, 1007, 1008, 1009].map
    (fun s : ℚ => { strike := s, bid := 1, ask := 1, volume := 1 })

/-- C10 witness: ten OTM calls at strikes 0, 111, ..., 999 (integer grid
points of `linspace(0, 999, 1000)`). -/
def c10wCalls : List OptRow :=
  [0, 111, 222, 333, 444, 555, 666, 777, 888, 999].map
    (fun s : ℚ => { strike := s, bid := 1, ask := 1, volume := 1 })

/-- C4 witness: sixteen prices with both gains and losses in every window. -/
def c4xs : List ℚ :=
  [10, 11, 9, 12, 8, 13, 7, 14, 6, 15, 5, 16, 4, 17, 3, 18]

/-
  Theorems.
-/

set_option maxRecDepth 10000

/-- C8: the three 14-period RSI implementations are the same function:
`technical_analysis.rsi` with length 14, `MarketFetcher._calculate_rsi` with
period 14, and the inline RSI of `fetch_crypto_indicators` produce identical
values at every index of every price series. -/
theorem rsi_implementations_agree (series : List F) :
    TA.rsi series 14 = MarketFetcher.calculate_rsi series 14 ∧
    TA.rsi series 14 = V2.crypto_rsi series :=
  ⟨rfl, rfl⟩

theorem lastN_length_le (n : ℕ) (l : List Json) : (lastN n l).length ≤ n := by
  simp [lastN]
  omega

theorem lastN_getLast?_concat (n : ℕ) (hn : 1 ≤ n) (l : List Json) (d : Json) :
    (lastN n (l ++ [d])).getLast? = some d := by
  unfold lastN
  rw [List.drop_append_of_le_length (by simp; omega)]
  exact List.getLast?_concat _

/-- C9: whenever the `the-shield` history update of `save_data` succeeds, the
written history holds at most 30 entries and its last entry is the record
just saved. -/
theorem save_data_history_bounded :
    ∀ (file : Option (Option Json)) (d : Json) (h : List Json),
      update_history file d = some h → h.length ≤ 30 ∧ h.getLast? = some d := by
  intro file d h hsome
  match file with
  | none =>
    simp only [update_history] at hsome
    cases hsome
    exact ⟨lastN_length_le _ _, lastN_getLast?_concat 30 (by omega) [] d⟩
  | some none => simp [update_history] at hsome
  | some (some (Json.arr l)) =>
    simp only [update_history] at hsome
    cases hsome
    exact ⟨lastN_length_le _ _, lastN_getLast?_concat 30 (by omega) l d⟩
  | some (some Json.null) => simp [update_history] at hsome
  | some (some (Json.bool b)) => simp [update_history] at hsome
  | some (some (Json.num q)) => simp [update_history] at hsome
  | some (some (Json.str s)) => simp [update_history] at hsome
  | some (some (Json.obj kvs)) => simp [update_history] at hsome

/-- C9 witness: a run on an absent history file stores exactly the one-entry
history, which is within the bound and ends with the saved record. -/
theorem save_data_history_bounded_witness :
    update_history none Json.null = some [Json.null] ∧
    ([Json.null] : List Json).length ≤ 30 ∧
    ([Json.null] : List Json).getLast? = some Json.null :=
  ⟨rfl, save_data_history_bounded none Json.null [Json.null] rfl⟩

theorem fsRead_fsWrite (p c : String) (fs : FS) :
    fsRead p (fsWrite p c fs) = some c := by
  simp [fsRead, fsWrite]

/-- C7: `build_site` is fetch-then-insight-then-write.  If `get_all_data`
raises, it returns before touching the file system (the snapshot is
unchanged, so the public directory is neither created nor modified); if
`generate_insight` raises, the build still completes and `public/index.html`
is rendered with the fallback insight `<p>Error generating insight.</p>`;
on full success it is rendered with the generated insight. -/
theorem build_site_fetch_atomic_insight_fallback :
    ∀ (e : String) (insight : Json → Except String String)
      (render : Json → String → String) (fs : FS) (d : Json) (ins : String),
      build_site (.error e) insight render fs = fs ∧
      fsRead "public/index.html" (build_site (.ok d) (fun _ => .error e) render fs) =
        some (render d fallbackInsight) ∧
      fsRead "public/index.html" (build_site (.ok d) (fun _ => .ok ins) render fs) =
        some (render d ins) := by
  intro e insight render fs d ins
  refine ⟨rfl, ?_, ?_⟩ <;>
    exact fsRead_fsWrite _ _ _

/-- C2: the v2 dashboard analyses crash when a market fetch failed.  With the
oil price absent from the store (`store.get('market.OIL')` is `None`),
`analyze_the_map` raises a `TypeError` at its prompt f-string instead of
returning its result dict, and likewise `analyze_the_coin` with the BTC price
absent — contradicting the claim that the analyses complete when an API is
down. -/
theorem analyze_crashes_without_price :
    analyze_the_map c2map_store none (fun _ => none) =
      .error "TypeError: unsupported format string passed to NoneType.__format__" ∧
    analyze_the_coin c2coin_store none (fun _ => none) =
      .error "TypeError: unsupported format string passed to NoneType.__format__" :=
  ⟨rfl, rfl⟩

/-- C5 counterexample: on a clean two-row dataframe (and oracles on which the
regression fits without raising), `calculate_risk_metric` raises nothing and
returns NaN for both current and previous risk — values outside [0, 1] — so
the claim that the returned risks always lie in [0, 1] is false. -/
theorem risk_metric_returns_nan_outside_unit :
    (calculate_risk_metric c5close c5log c5exp c5fit).1 = F.nan ∧
    (calculate_risk_metric c5close c5log c5exp c5fit).2.1 = F.nan ∧
    inUnitB (calculate_risk_metric c5close c5log c5exp c5fit).1 = false ∧
    (calculate_risk_metric c5close c5log c5exp c5fit).2.2 ≠
      List.replicate 52 (F.fin (1/2)) := by
  refine ⟨by decide, by decide, by decide, ?_⟩
  intro hcontra
  have : (calculate_risk_metric c5close c5log c5exp c5fit).2.2.length = 52 := by
    rw [hcontra]; simp
  simp [show (calculate_risk_metric c5close c5log c5exp c5fit).2.2.length = 2 from by decide]
    at this

theorem callLoop_spec (post : String → PostOutcome) (now : String) :
    ∀ (models : List String) (acc : Option String),
      callLoop post now acc models =
        match firstOk post models with
        | some (m, c) =>
          { success := true, data := { content := c, model := some m }
            source := "openrouter", fetched_at := now, error := none }
        | none =>
          { success := false
            data := { content := "AI analysis temporarily unavailable.", model := none }
            source := "openrouter", fetched_at := now
            error := some ((lastErrFold post acc models).getD "None") } := by
  intro models
  induction models with
  | nil => intro acc; rfl
  | cons m rest ih =>
    intro acc
    simp only [callLoop, firstOk, lastErrFold, List.map_cons, List.foldl_cons]
    cases tryModel post m with
    | ok c => rfl
    | error e => exact ih (some e)

/-- C1 (amended): with an API key configured, `call_ai` returns the response
of the first model key whose POST raises nothing, has a non-error HTTP
status, and whose JSON body holds a non-empty `choices` list — the
brace-substring JSON parse is done by the caller and never advances the
fallback loop — and when every model fails it returns `success = False`
carrying `str(last_error)` of the last model tried. -/
theorem call_ai_first_http_success (k : String) (post : String → PostOutcome)
    (models : List String) (now : String) :
    call_ai (some k) post models now = call_ai_amended post models now := by
  simp only [call_ai, call_ai_amended, lastTryErr]
  exact callLoop_spec post now models none

/-- C1 counterexample: `call_ai` returns the response of a model whose
content has no brace-delimited JSON at all (so it fails the claim's
acceptance test) even though the next candidate would pass it — the loop
advances only on HTTP/`choices` failures, not on the JSON-parse failure the
claim describes. -/
theorem call_ai_ignores_brace_parse_failure :
    (call_ai (some "k") c1post ["m1", "m2"] "T").success = true ∧
    (call_ai (some "k") c1post ["m1", "m2"] "T").data.model = some "m1" ∧
    (call_ai (some "k") c1post ["m1", "m2"] "T").data.content = "hello" ∧
    claimPasses c1parse c1post "m1" = false ∧
    claimPasses c1parse c1post "m2" = true :=
  ⟨rfl, rfl, rfl, by decide, by decide⟩

/-- C3: every fetcher returns a `FetchResult` for every outcome of the
wrapped third-party call — including a raise, which the `try/except` converts
into a failure value — and every failure result carries a non-`None` error.
Stated as: `success || error.isSome` always holds for `fetch_ticker`,
`fetch_auction`, `fetch_rss`, `fetch_fear_and_greed` and `fetch_papers`. -/
theorem fetchers_tag_failures_with_errors :
    ∀ (yfA reqA fpA : Bool) (cT : Option (CEntry TickerData))
      (cA : Option (CEntry Json)) (cR : Option (CEntry (List Article)))
      (cG : Option (CEntry FngData)) (cP : Option (CEntry ArxivData))
      (fi : Except String (Option ℚ)) (hi : Except String (List ℚ))
      (respA respG : Except String Json)
      (feeds : List (Except String (List Article)))
      (pap : Except String (ℕ × List Paper)) (now t p q : String),
      ((fetch_ticker yfA cT fi hi now t p).success
        || (fetch_ticker yfA cT fi hi now t p).error.isSome) = true ∧
      ((fetch_auction reqA cA respA now).success
        || (fetch_auction reqA cA respA now).error.isSome) = true ∧
      ((fetch_rss fpA reqA cR feeds now).success
        || (fetch_rss fpA reqA cR feeds now).error.isSome) = true ∧
      ((fetch_fear_and_greed reqA cG respG now).success
        || (fetch_fear_and_greed reqA cG respG now).error.isSome) = true ∧
      ((fetch_papers cP pap q now).success
        || (fetch_papers cP pap q now).error.isSome) = true := by
  intro yfA reqA fpA cT cA cR cG cP fi hi respA respG feeds pap now t p q
  refine ⟨?_, ?_, ?_, ?_, ?_⟩
  · cases yfA with
    | false => simp [fetch_ticker]
    | true =>
      cases cT with
      | some c => simp [fetch_ticker]
      | none =>
        cases fi with
        | ok v =>
          cases v with
          | some pr => simp [fetch_ticker, fetch_ticker_try, bind, Except.bind, pure, Except.pure]
          | none =>
            cases hi with
            | error e => simp [fetch_ticker, fetch_ticker_try, bind, Except.bind, pure, Except.pure]
            | ok hist =>
              cases hl : hist.getLast? <;>
                simp [fetch_ticker, fetch_ticker_try, bind, Except.bind, pure, Except.pure, hl]
        | error e =>
          cases hi with
          | error e2 => simp [fetch_ticker, fetch_ticker_try, bind, Except.bind, pure, Except.pure]
          | ok hist =>
            cases hl : hist.getLast? <;>
              simp [fetch_ticker, fetch_ticker_try, bind, Except.bind, pure, Except.pure, hl]
  · unfold fetch_auction
    cases reqA with
    | false => rfl
    | true =>
      cases cA with
      | some c => rfl
      | none =>
        cases respA with
        | error e => rfl
        | ok j =>
          simp only [Bool.not_true, Bool.false_eq_true, if_false]
          cases hj : jsonGet j "data" with
          | none => simp
          | some v =>
            cases v <;> simp
            rename_i l
            cases l <;> simp
  · unfold fetch_rss
    cases fpA with
    | false => cases reqA <;> rfl
    | true => cases cR <;> rfl
  · unfold fetch_fear_and_greed
    cases reqA with
    | false => rfl
    | true =>
      cases cG with
      | some c => rfl
      | none =>
        cases respG with
        | error e => rfl
        | ok j =>
          simp only [Bool.not_true, Bool.false_eq_true, if_false]
          cases fngExtract j <;> simp
  · unfold fetch_papers
    cases cP with
    | some c => rfl
    | none => cases pap with
      | error e => rfl
      | ok pr => rfl

theorem clip01_nan_or_unit (v : F) :
    ((F.clip01 v).isNan || inUnitB (F.clip01 v)) = true := by
  cases v with
  | fin q =>
    simp only [F.clip01, inUnitB, F.isNan, Bool.false_or, decide_eq_true_eq]
    exact ⟨le_max_left 0 _, max_le (by norm_num) (min_le_left 1 q)⟩
  | pinf => norm_num [F.clip01, inUnitB, F.isNan]
  | ninf => norm_num [F.clip01, inUnitB, F.isNan]
  | nan => rfl

/-- C5 (amended): `calculate_risk_metric` returns current and previous risks
that are each either NaN or a finite value in [0, 1]: on the success path each
is a `clip(0, 1)` output (NaN survives the clip when the 200-week rolling
window has fewer than 50 valid observations or the normalisation divides 0 by
0), and on any exception the fallback `(0.5, 0.5, [0.5] * 52)` is returned. -/
theorem risk_metric_unit_or_nan (close : List F) (qlog qexp : F → F)
    (pf : List (F × F) → Except String (F × F)) :
    (((calculate_risk_metric close qlog qexp pf).1.isNan
      || inUnitB (calculate_risk_metric close qlog qexp pf).1) = true) ∧
    (((calculate_risk_metric close qlog qexp pf).2.1.isNan
      || inUnitB (calculate_risk_metric close qlog qexp pf).2.1) = true) := by
  have hmem : ∀ slope intercept, ∀ x ∈ riskSeries close qlog qexp slope intercept,
      (x.isNan || inUnitB x) = true := by
    intro slope intercept x hx
    unfold riskSeries at hx
    obtain ⟨v, _, rfl⟩ := List.mem_map.mp hx
    exact clip01_nan_or_unit v
  unfold calculate_risk_metric
  split
  · constructor <;> norm_num [riskFallback, inUnitB, F.isNan]
  · rename_i slope intercept
    unfold riskFinish
    split
    · rename_i c p hc hp
      exact ⟨hmem _ _ c (List.mem_of_mem_getLast? hc),
             hmem _ _ p (List.dropLast_subset _ (List.mem_of_mem_getLast? hp))⟩
    · constructor <;> norm_num [riskFallback, inUnitB, F.isNan]


theorem fetchedAtStr_obj (kvs : List (String × Json)) (s : String)
    (hfa : (kvs.find? (fun kv => kv.1 = "fetched_at")).map (fun kv => kv.2) =
      some (Json.str s)) :
    fetchedAtStr (Json.obj kvs) = some s := by
  simp only [fetchedAtStr]
  rw [hfa]

/-- C6: the `BaseFetcher` cache round-trips and expires.  After
`set_cache(key, payload)` where `payload` carries `fetched_at` time `t`, a
`get_cached(key, max_age_seconds)` call strictly less than `max_age_seconds`
after `t` returns exactly that payload; and `get_cached` returns `None` when
the cache file is absent, when it is unparseable, or when the stored
`fetched_at` is at least `max_age_seconds` old. -/
theorem cache_roundtrip_and_expiry
    (parseTs : String → Option ℤ) (now t maxAge : ℤ) (fs : CacheFS)
    (key s : String) (kvs : List (String × Json)) :
    (((kvs.find? (fun kv => kv.1 = "fetched_at")).map (fun kv => kv.2) =
        some (Json.str s)) →
      parseTs s = some t →
      ((now - t < maxAge →
        get_cached parseTs now (set_cache fs key (Json.obj kvs)) key maxAge =
          some (Json.obj kvs)) ∧
       (maxAge ≤ now - t →
        get_cached parseTs now (set_cache fs key (Json.obj kvs)) key maxAge =
          none))) ∧
    (fs (key ++ ".json") = none → get_cached parseTs now fs key maxAge = none) ∧
    (fs (key ++ ".json") = some none → get_cached parseTs now fs key maxAge = none) := by
  refine ⟨?_, ?_, ?_⟩
  · intro hfa hts
    unfold get_cached set_cache
    rw [if_pos rfl]
    simp only [fetchedAtStr_obj kvs s hfa, hts]
    constructor
    · intro hfresh
      rw [if_pos hfresh]
    · intro hstale
      rw [if_neg (by omega)]
  · intro habs
    unfold get_cached
    rw [habs]
  · intro hbad
    unfold get_cached
    rw [hbad]

/-- C6 witness: a concrete round-trip — the payload stored at time 100 is
returned verbatim when read at time 150 with a 300-second budget, the same
read at time 400 returns `None`, and so do reads of an absent and of a
corrupt cache file. -/
theorem cache_roundtrip_and_expiry_witness :
    get_cached c6parse 150 (set_cache c6emptyFS "k" (Json.obj c6payloadKvs)) "k" 300 =
      some (Json.obj c6payloadKvs) ∧
    get_cached c6parse 400 (set_cache c6emptyFS "k" (Json.obj c6payloadKvs)) "k" 300 =
      none ∧
    get_cached c6parse 150 c6emptyFS "k" 300 = none ∧
    get_cached c6parse 150 c6corruptFS "k" 300 = none := by
  refine ⟨?_, ?_, ?_, ?_⟩
  · exact ((cache_roundtrip_and_expiry c6parse 150 100 300 c6emptyFS "k" "TS"
      c6payloadKvs).1 rfl rfl).1 (by decide)
  · exact ((cache_roundtrip_and_expiry c6parse 400 100 300 c6emptyFS "k" "TS"
      c6payloadKvs).1 rfl rfl).2 (by decide)
  · exact (cache_roundtrip_and_expiry c6parse 150 100 300 c6emptyFS "k" "TS"
      c6payloadKvs).2.1 rfl
  · exact (cache_roundtrip_and_expiry c6parse 150 100 300 c6corruptFS "k" "TS"
      c6payloadKvs).2.2 rfl

theorem foldl_add_fin (ws : List ℚ) : ∀ (a : ℚ),
    (ws.map F.fin).foldl F.add (F.fin a) = F.fin (a + ws.sum) := by
  induction ws with
  | nil => intro a; simp
  | cons w rest ih =>
    intro a
    simp only [List.map_cons, List.foldl_cons, List.sum_cons]
    rw [show F.add (F.fin a) (F.fin w) = F.fin (a + w) from rfl, ih]
    ring_nf

theorem filter_notNan_map_fin (ys : List ℚ) :
    (ys.map F.fin).filter (fun x => !x.isNan) = ys.map F.fin := by
  rw [List.filter_eq_self]
  intro x hx
  obtain ⟨v, _, rfl⟩ := List.mem_map.mp hx
  rfl

theorem meanAgg_map_fin (ws : List ℚ) (hne : ws ≠ []) :
    meanAgg (ws.map F.fin) = F.fin (ws.sum / ws.length) := by
  unfold meanAgg
  rw [show (F.fin 0) = F.fin (0 : ℚ) from rfl, foldl_add_fin ws 0, zero_add]
  simp only [List.length_map]
  have hlen : ((ws.length : ℚ)) ≠ 0 := by
    simp [List.length_eq_zero, hne]
  unfold F.div
  simp [hlen]

theorem rollApply_getElem? (n minp : ℕ) (agg : List F → F) (l : List F) (i : ℕ)
    (hi : i < l.length) :
    (rollApply n minp agg l)[i]? =
      some (if (((l.take (i + 1)).drop (i + 1 - n)).filter (fun x => !x.isNan)).length < minp
            then F.nan
            else agg (((l.take (i + 1)).drop (i + 1 - n)).filter (fun x => !x.isNan))) := by
  unfold rollApply
  rw [List.getElem?_map, List.getElem?_range hi]
  rfl

theorem rollingMean_map_fin (ys : List ℚ) (n i : ℕ) (hn : 1 ≤ n)
    (hi : i < ys.length) :
    (rollingMean n (ys.map F.fin))[i]? =
      some (if i + 1 < n then F.nan else F.fin (meanSpec ys n i)) := by
  unfold rollingMean
  rw [rollApply_getElem? n n meanAgg (ys.map F.fin) i (by simpa using hi)]
  rw [← List.map_take, ← List.map_drop, filter_notNan_map_fin]
  have hwin : (((ys.take (i + 1)).drop (i + 1 - n)).map F.fin).length =
      min n (i + 1) := by
    simp only [List.length_map, List.length_drop, List.length_take]
    omega
  by_cases hlt : i + 1 < n
  · rw [if_pos (by rw [hwin]; omega), if_pos hlt]
  · rw [if_neg (by rw [hwin]; omega), if_neg hlt]
    have hne : (ys.take (i + 1)).drop (i + 1 - n) ≠ [] := by
      intro hcontra
      have := congrArg List.length hcontra
      simp only [List.length_drop, List.length_take, List.length_nil] at this
      omega
    rw [meanAgg_map_fin _ hne]
    have hlen2 : ((ys.take (i + 1)).drop (i + 1 - n)).length = n := by
      simp only [List.length_drop, List.length_take]
      omega
    rw [meanSpec, hlen2]

theorem ewmAux_map_fin (a : ℚ) (xs : List ℚ) : ∀ (prev : ℚ),
    ewmAux a (F.fin prev) (xs.map F.fin) = (emaSpecAux a prev xs).map F.fin := by
  induction xs with
  | nil => intro prev; rfl
  | cons x rest ih =>
    intro prev
    simp only [List.map_cons, ewmAux, emaSpecAux]
    have harith : ((F.fin (1 - a)).mul (F.fin prev)).add ((F.fin a).mul (F.fin x)) =
        F.fin (a * x + (1 - a) * prev) := by
      show F.fin ((1 - a) * prev + a * x) = F.fin (a * x + (1 - a) * prev)
      rw [add_comm]
    rw [harith, ih]

theorem ewm_map_fin (a : ℚ) (xs : List ℚ) :
    ewmAdjFalse a (xs.map F.fin) = (emaSpec a xs).map F.fin := by
  cases xs with
  | nil => rfl
  | cons x rest =>
    simp only [List.map_cons, ewmAdjFalse, emaSpec]
    rw [ewmAux_map_fin]

theorem diffAux_map_fin (bs : List ℚ) : ∀ (a : ℚ),
    diffAux (F.fin a) (bs.map F.fin) =
      (List.zipWith (fun b c => b - c) bs (a :: bs)).map F.fin := by
  induction bs with
  | nil => intro a; rfl
  | cons b rest ih =>
    intro a
    simp only [List.map_cons, diffAux, List.zipWith_cons_cons]
    congr 1
    · show F.fin (b + -a) = F.fin (b - a)
      rw [← sub_eq_add_neg]
    · exact ih b

theorem map_keepPos_diff (xs : List ℚ) :
    (diff (xs.map F.fin)).map keepPos = (gainSrc xs).map F.fin := by
  cases xs with
  | nil => rfl
  | cons x rest =>
    simp only [List.map_cons, diff, gainSrc, List.map_cons, List.tail_cons]
    rw [diffAux_map_fin rest x]
    simp only [List.map_cons, List.map_map]
    congr 1
    rw [List.map_zipWith, List.map_zipWith]
    congr 1
    funext b c
    show keepPos (F.fin (b - c)) = F.fin (if c < b then b - c else 0)
    unfold keepPos F.flt
    by_cases h : c < b
    · rw [if_pos (by simpa [sub_pos] using h), if_pos h]
    · rw [if_neg (by simpa [sub_pos] using h), if_neg h]

theorem map_keepNegNeg_diff (xs : List ℚ) :
    (diff (xs.map F.fin)).map keepNegNeg = (lossSrc xs).map F.fin := by
  cases xs with
  | nil => rfl
  | cons x rest =>
    simp only [List.map_cons, diff, lossSrc, List.map_cons, List.tail_cons]
    rw [diffAux_map_fin rest x]
    simp only [List.map_cons, List.map_map]
    congr 1
    rw [List.map_zipWith, List.map_zipWith]
    congr 1
    funext b c
    show keepNegNeg (F.fin (b - c)) = F.fin (if b < c then c - b else 0)
    unfold keepNegNeg F.flt
    by_cases h : b < c
    · rw [if_pos (by simpa [sub_neg] using h)]
      show F.fin (-(b - c)) = _
      rw [neg_sub, if_pos h]
    · rw [if_neg (by simpa [sub_neg] using h)]
      show F.fin (-0 : ℚ) = _
      rw [neg_zero, if_neg h]

theorem zipWith_getElem?F (f : F → F → F) :
    ∀ (a b : List F) (i : ℕ),
      (List.zipWith f a b)[i]? =
        match a[i]?, b[i]? with
        | some x, some y => some (f x y)
        | _, _ => none := by
  intro a
  induction a with
  | nil => intro b i; cases b <;> cases i <;> simp
  | cons x xs ih =>
    intro b i
    cases b with
    | nil => cases i <;> simp
    | cons y ys =>
      cases i with
      | zero => simp
      | succ j => simpa using ih ys j

theorem gainSrc_length (xs : List ℚ) : (gainSrc xs).length = xs.length := by
  cases xs with
  | nil => rfl
  | cons x rest => simp [gainSrc, List.length_zipWith]

theorem lossSrc_length (xs : List ℚ) : (lossSrc xs).length = xs.length := by
  cases xs with
  | nil => rfl
  | cons x rest => simp [lossSrc, List.length_zipWith]

theorem mem_zipWith_imp {α : Type} (f : α → α → α) :
    ∀ (a b : List α) (v : α), v ∈ List.zipWith f a b → ∃ x y, v = f x y := by
  intro a
  induction a with
  | nil => intro b v hv; simp at hv
  | cons x xs ih =>
    intro b v hv
    cases b with
    | nil => simp at hv
    | cons y ys =>
      rw [List.zipWith_cons_cons, List.mem_cons] at hv
      rcases hv with rfl | hv
      · exact ⟨x, y, rfl⟩
      · exact ih ys v hv

theorem gainSrc_nonneg (xs : List ℚ) : ∀ v ∈ gainSrc xs, 0 ≤ v := by
  cases xs with
  | nil => intro v hv; simp [gainSrc] at hv
  | cons x rest =>
    intro v hv
    simp only [gainSrc, List.mem_cons] at hv
    rcases hv with rfl | hv
    · exact le_refl 0
    · obtain ⟨b, c, rfl⟩ := mem_zipWith_imp _ _ _ _ hv
      by_cases h : c < b
      · rw [if_pos h]; linarith
      · rw [if_neg h]

theorem meanSpec_nonneg (l : List ℚ) (n i : ℕ) (hpos : ∀ v ∈ l, 0 ≤ v) :
    0 ≤ meanSpec l n i := by
  unfold meanSpec
  apply div_nonneg
  · apply List.sum_nonneg
    intro v hv
    exact hpos v (List.mem_of_mem_take (List.mem_of_mem_drop hv))
  · positivity

/-- C4: the indicator formulas.  For every price series and window `n ≥ 1`:
`sma` at an index with at least `n-1` predecessors is the arithmetic mean of
the `n` most recent values and NaN before that; `ema` is the recursion
`e 0 = x 0`, `e t = a * x t + (1 - a) * e (t-1)` with `a = 2 / (n + 1)`; and
`rsi` with length 14, at every index where the 14-period average loss is
strictly positive, equals `100 - 100 / (1 + g / l)` for `g`, `l` the
14-period simple moving averages of the positive and negated negative price
deltas — a value lying in [0, 100]. -/
theorem sma_ema_rsi_formulas (xs : List ℚ) (n : ℕ) (hn : 1 ≤ n) :
    (∀ i, i < xs.length →
      (TA.sma (xs.map F.fin) n)[i]? =
        some (if i + 1 < n then F.nan else F.fin (meanSpec xs n i))) ∧
    TA.ema (xs.map F.fin) n = (emaSpec (2 / (n + 1)) xs).map F.fin ∧
    (∀ i, 13 ≤ i → i < xs.length → 0 < meanSpec (lossSrc xs) 14 i →
      (TA.rsi (xs.map F.fin) 14)[i]? =
        some (F.fin (100 - 100 /
          (1 + meanSpec (gainSrc xs) 14 i / meanSpec (lossSrc xs) 14 i))) ∧
      0 ≤ 100 - 100 / (1 + meanSpec (gainSrc xs) 14 i / meanSpec (lossSrc xs) 14 i) ∧
      100 - 100 / (1 + meanSpec (gainSrc xs) 14 i / meanSpec (lossSrc xs) 14 i) ≤ 100) := by
  refine ⟨?_, ?_, ?_⟩
  · intro i hi
    exact rollingMean_map_fin xs n i hn hi
  · exact ewm_map_fin _ xs
  · intro i h13 hi hl
    set g := meanSpec (gainSrc xs) 14 i with hg
    set l := meanSpec (lossSrc xs) 14 i with hldef
    have hg0 : 0 ≤ g := meanSpec_nonneg _ 14 i (gainSrc_nonneg xs)
    have hrs0 : 0 ≤ g / l := div_nonneg hg0 (le_of_lt hl)
    have h1p : (1 : ℚ) + g / l ≠ 0 := by linarith
    have hbound1 : 100 / (1 + g / l) ≤ 100 := div_le_self (by norm_num) (by linarith)
    have hbound2 : 0 ≤ 100 / (1 + g / l) := div_nonneg (by norm_num) (by linarith)
    refine ⟨?_, by linarith, by linarith⟩
    simp only [TA.rsi]
    rw [map_keepPos_diff, map_keepNegNeg_diff, List.getElem?_map, zipWith_getElem?F]
    rw [rollingMean_map_fin (gainSrc xs) 14 i (by omega)
        (by rw [gainSrc_length]; exact hi)]
    rw [rollingMean_map_fin (lossSrc xs) 14 i (by omega)
        (by rw [lossSrc_length]; exact hi)]
    rw [if_neg (by omega), if_neg (by omega)]
    simp only [← hg, ← hldef, Option.map_some']
    have hdiv : F.div (F.fin g) (F.fin l) = F.fin (g / l) := by
      simp only [F.div]
      rw [if_neg (ne_of_gt hl)]
    have hadd : (F.fin 1).add (F.fin (g / l)) = F.fin (1 + g / l) := rfl
    have hdiv2 : (F.fin 100).div (F.fin (1 + g / l)) = F.fin (100 / (1 + g / l)) := by
      simp only [F.div]
      rw [if_neg h1p]
    have hsub : (F.fin 100).sub (F.fin (100 / (1 + g / l))) =
        F.fin (100 - 100 / (1 + g / l)) := by
      show F.fin (100 + -(100 / (1 + g / l))) = _
      rw [← sub_eq_add_neg]
    rw [hdiv, hadd, hdiv2, hsub]

/-- C4 witness: the formulas instantiated on a concrete 16-week price series
at index 14 (windows containing both gains and losses). -/
theorem sma_ema_rsi_formulas_witness :
    (1 : ℕ) ≤ 14 ∧ 14 < c4xs.length ∧ 0 < meanSpec (lossSrc c4xs) 14 14 ∧
    (TA.sma (c4xs.map F.fin) 14)[14]? = some (F.fin (meanSpec c4xs 14 14)) ∧
    TA.ema (c4xs.map F.fin) 14 = (emaSpec (2 / ((14 : ℕ) + 1)) c4xs).map F.fin ∧
    (TA.rsi (c4xs.map F.fin) 14)[14]? =
      some (F.fin (100 - 100 /
        (1 + meanSpec (gainSrc c4xs) 14 14 / meanSpec (lossSrc c4xs) 14 14))) := by
  have h14 : (1 : ℕ) ≤ 14 := by norm_num
  have hlen : (14 : ℕ) < c4xs.length := by decide
  have hloss : 0 < meanSpec (lossSrc c4xs) 14 14 := by
    norm_num [meanSpec, lossSrc, c4xs]
  obtain ⟨hsma, hema, hrsi⟩ := sma_ema_rsi_formulas c4xs 14 h14
  refine ⟨h14, hlen, hloss, ?_, hema, (hrsi 14 (by norm_num) hlen hloss).1⟩
  have := hsma 14 hlen
  rwa [if_neg (by omega)] at this

theorem trapz_cons_cons (y0 y1 x0 x1 : ℚ) (ys xs : List ℚ) :
    trapz (y0 :: y1 :: ys) (x0 :: x1 :: xs) =
      (x1 - x0) * (y0 + y1) / 2 + trapz (y1 :: ys) (x1 :: xs) := rfl

theorem trapz_map_div (a : ℚ) :
    ∀ (y x : List ℚ), trapz (y.map (fun v => v / a)) x = trapz y x / a := by
  intro y
  induction y with
  | nil => intro x; simp [trapz]
  | cons y0 ytail ih =>
    intro x
    cases x with
    | nil => simp [trapz]
    | cons x0 xtail =>
      cases ytail with
      | nil => cases xtail <;> simp [trapz]
      | cons y1 yrest =>
        cases xtail with
        | nil => simp [trapz]
        | cons x1 xrest =>
          simp only [List.map_cons]
          rw [trapz_cons_cons, trapz_cons_cons]
          have ihx := ih (x1 :: xrest)
          simp only [List.map_cons] at ihx
          rw [ihx]
          ring

theorem trapz_nonneg :
    ∀ (y x : List ℚ), (∀ v ∈ y, 0 ≤ v) → List.Chain' (· ≤ ·) x → 0 ≤ trapz y x := by
  intro y
  induction y with
  | nil => intro x _ _; simp [trapz]
  | cons y0 ytail ih =>
    intro x hy hx
    cases x with
    | nil => simp [trapz]
    | cons x0 xtail =>
      cases ytail with
      | nil => cases xtail <;> simp [trapz]
      | cons y1 yrest =>
        cases xtail with
        | nil => simp [trapz]
        | cons x1 xrest =>
          rw [trapz_cons_cons]
          have hstep : x0 ≤ x1 := (List.chain'_cons.mp hx).1
          have hy0 : 0 ≤ y0 := hy y0 (by simp)
          have hy1 : 0 ≤ y1 := hy y1 (by simp)
          have hrec : 0 ≤ trapz (y1 :: yrest) (x1 :: xrest) :=
            ih (x1 :: xrest) (fun v hv => hy v (List.mem_cons_of_mem _ hv))
              (List.chain'_cons.mp hx).2
          have hterm : 0 ≤ (x1 - x0) * (y0 + y1) / 2 :=
            div_nonneg (mul_nonneg (by linarith) (by linarith)) (by norm_num)
          linarith

theorem trapz_const (c : ℚ) :
    ∀ (x : List ℚ), trapz (x.map (fun _ => c)) x =
      c * (x.getLast?.getD 0 - x.headD 0) := by
  intro x
  induction x with
  | nil => simp [trapz]
  | cons x0 xtail ih =>
    cases xtail with
    | nil => simp [trapz]
    | cons x1 xrest =>
      simp only [List.map_cons]
      rw [trapz_cons_cons]
      have ih2 := ih
      simp only [List.map_cons] at ih2
      rw [ih2]
      rw [List.getLast?_cons_cons]
      simp only [List.headD_cons]
      cases hrest : (x1 :: xrest).getLast? with
      | none => simp at hrest
      | some z =>
        simp only [Option.getD_some]
        ring

theorem chain'_le_map_range (f : ℕ → ℚ) (hf : ∀ m, f m ≤ f (m + 1)) (n : ℕ) :
    List.Chain' (· ≤ ·) ((List.range n).map f) := by
  rw [List.chain'_map]
  cases n with
  | zero => simp
  | succ k =>
    rw [List.chain'_range_succ]
    intro m _
    exact hf m

theorem linspace_chain' (a b : ℚ) (hab : a ≤ b) (n : ℕ) :
    List.Chain' (· ≤ ·) (linspace a b n) := by
  unfold linspace
  cases n with
  | zero => simp
  | succ k =>
    apply chain'_le_map_range
    intro m
    have hcast : ((k + 1 : ℕ) : ℚ) - 1 = (k : ℚ) := by push_cast; ring
    rw [hcast]
    by_cases hk : (k : ℚ) = 0
    · rw [hk]
      simp
    · have hkpos : (0 : ℚ) < (k : ℚ) := lt_of_le_of_ne (by positivity) (Ne.symm hk)
      gcongr
      · linarith
      · exact_mod_cast Nat.le_succ m

theorem foldl_min_le (l : List ℚ) : ∀ s : ℚ, l.foldl min s ≤ s := by
  induction l with
  | nil => intro s; exact le_refl s
  | cons x xs ih =>
    intro s
    calc (x :: xs).foldl min s = xs.foldl min (min s x) := rfl
    _ ≤ min s x := ih (min s x)
    _ ≤ s := min_le_left s x

theorem le_foldl_max (l : List ℚ) : ∀ s : ℚ, s ≤ l.foldl max s := by
  induction l with
  | nil => intro s; exact le_refl s
  | cons x xs ih =>
    intro s
    calc s ≤ max s x := le_max_left s x
    _ ≤ xs.foldl max (max s x) := ih (max s x)
    _ = (x :: xs).foldl max s := rfl

theorem pdfCurve_chain' (splev2 : List (ℚ × ℚ) → ℚ → ℚ) (data : List (ℚ × ℚ)) :
    List.Chain' (· ≤ ·) (pdfCurve splev2 data).1 := by
  unfold pdfCurve
  apply linspace_chain'
  calc (data.map (fun p => p.1)).foldl min ((data.map (fun p => p.1)).headD 0)
      ≤ (data.map (fun p => p.1)).headD 0 := foldl_min_le _ _
  _ ≤ (data.map (fun p => p.1)).foldl max ((data.map (fun p => p.1)).headD 0) :=
      le_foldl_max _ _

theorem pdfCurve_nonneg (splev2 : List (ℚ × ℚ) → ℚ → ℚ) (data : List (ℚ × ℚ)) :
    ∀ v ∈ (pdfCurve splev2 data).2, 0 ≤ v := by
  unfold pdfCurve
  intro v hv
  simp only [List.mem_map] at hv
  obtain ⟨x, _, rfl⟩ := hv
  exact le_max_right _ 0

theorem pdfArea_nonneg (splev2 : List (ℚ × ℚ) → ℚ → ℚ) (data : List (ℚ × ℚ)) :
    0 ≤ pdfArea splev2 data :=
  trapz_nonneg _ _ (pdfCurve_nonneg splev2 data) (pdfCurve_chain' splev2 data)

/-- C10 (amended): `calculate_pdf` returns `(None, None)` exactly when fewer
than ten distinct strikes survive the bid/volume filtering AND the
out-of-the-money selection (puts strictly below the current price, calls at
or above it), the spline fit raises, or the raw clamped second-derivative
curve has zero area; otherwise it returns a grid and a probability curve that
is pointwise non-negative with trapezoidal integral exactly 1. -/
theorem calculate_pdf_none_iff_and_normalized
    (splrep : List (ℚ × ℚ) → Except String Unit)
    (splev2 : List (ℚ × ℚ) → ℚ → ℚ) (calls puts : List OptRow) (S : ℚ) :
    (calculate_pdf splrep splev2 calls puts S = none ↔
      amendedNoneB splrep splev2 calls puts S = true) ∧
    (∀ x pdf, calculate_pdf splrep splev2 calls puts S = some (x, pdf) →
      (∀ y ∈ pdf, 0 ≤ y) ∧ trapz pdf x = 1) := by
  by_cases h10 : (pdfData calls puts S).length < 10
  · constructor
    · simp [calculate_pdf, amendedNoneB, h10]
    · intro x pdf hsome
      simp [calculate_pdf, h10] at hsome
  · cases hsp : splrep (pdfData calls puts S) with
    | error e =>
      constructor
      · simp [calculate_pdf, amendedNoneB, h10, hsp]
      · intro x pdf hsome
        simp [calculate_pdf, h10, hsp] at hsome
    | ok u =>
      by_cases harea : pdfArea splev2 (pdfData calls puts S) = 0
      · constructor
        · simp [calculate_pdf, amendedNoneB, h10, hsp, harea]
        · intro x pdf hsome
          simp [calculate_pdf, h10, hsp, harea] at hsome
      · have hpos : 0 < pdfArea splev2 (pdfData calls puts S) :=
          lt_of_le_of_ne (pdfArea_nonneg splev2 _) (Ne.symm harea)
        constructor
        · simp [calculate_pdf, amendedNoneB, h10, hsp, harea]
        · intro x pdf hsome
          simp only [calculate_pdf, if_neg h10, hsp, if_neg harea,
            Option.some.injEq, Prod.mk.injEq] at hsome
          obtain ⟨hx, hpdf⟩ := hsome
          subst hx
          subst hpdf
          constructor
          · intro y hy
            simp only [List.mem_map] at hy
            obtain ⟨v, hv, rfl⟩ := hy
            exact div_nonneg (pdfCurve_nonneg splev2 _ v hv) (le_of_lt hpos)
          · rw [trapz_map_div]
            exact div_self harea

theorem pdfArea_splev2One (data : List (ℚ × ℚ)) :
    pdfArea splev2One data =
      (linspace ((data.map (fun p => p.1)).foldl min ((data.map (fun p => p.1)).headD 0))
        ((data.map (fun p => p.1)).foldl max ((data.map (fun p => p.1)).headD 0))
        1000).getLast?.getD 0 -
      (linspace ((data.map (fun p => p.1)).foldl min ((data.map (fun p => p.1)).headD 0))
        ((data.map (fun p => p.1)).foldl max ((data.map (fun p => p.1)).headD 0))
        1000).headD 0 := by
  unfold pdfArea pdfCurve
  simp only [splev2One]
  rw [show (fun (x : ℚ) => max (1 : ℚ) 0) = (fun _ => (1 : ℚ)) from
    funext (fun _ => by norm_num)]
  rw [trapz_const 1, one_mul]

theorem linspace_headD_1000 (a b : ℚ) : (linspace a b 1000).headD 0 = a := by
  unfold linspace
  rw [show (1000 : ℕ) = 999 + 1 from rfl, List.range_succ_eq_map]
  simp

theorem linspace_getLast_1000 (a b : ℚ) : (linspace a b 1000).getLast?.getD 0 = b := by
  unfold linspace
  rw [List.getLast?_map, List.getLast?_eq_getElem?]
  simp only [List.length_range]
  rw [List.getElem?_range (by norm_num : (999 : ℕ) < 1000)]
  simp only [Option.map_some', Option.getD_some]
  have h999 : ((1000 : ℕ) : ℚ) - 1 ≠ 0 := by norm_num
  field_simp
  ring

theorem pdfArea_c10x : pdfArea splev2One (pdfData c10xCalls c10xPuts 5000) = 999 := by
  rw [pdfArea_splev2One]
  rw [show (pdfData c10xCalls c10xPuts 5000).map (fun p => p.1) = [0, 999] from rfl]
  have ha : ([0, 999] : List ℚ).foldl min (([0, 999] : List ℚ).headD 0) = 0 := by
    norm_num [List.foldl, min_def]
  have hb : ([0, 999] : List ℚ).foldl max (([0, 999] : List ℚ).headD 0) = 999 := by
    norm_num [List.foldl, max_def]
  rw [ha, hb, linspace_headD_1000, linspace_getLast_1000]
  norm_num

/-- C10 counterexample: with ten distinct call strikes surviving the
bid/volume filter but sitting below the current price (so the OTM selection
drops them) and only two put rows surviving, `calculate_pdf` returns
`(None, None)` although none of the claim's three conditions holds: at least
ten distinct strikes survive the bid/volume filtering, the spline fit
succeeds, and the raw curve has area 999 ≠ 0. -/
theorem calculate_pdf_none_despite_claim_conditions :
    calculate_pdf splrepOk splev2One c10xCalls c10xPuts 5000 = none ∧
    claimNoneB splrepOk splev2One c10xCalls c10xPuts 5000 = false := by
  constructor
  · simp [calculate_pdf]
    decide
  · unfold claimNoneB
    rw [pdfArea_c10x]
    rw [decide_eq_false (by decide : ¬(distinctStrikesAfterFilter c10xCalls c10xPuts < 10))]
    rw [decide_eq_false (by norm_num : ¬((999 : ℚ) = 0))]
    rfl

theorem pdfArea_c10w : pdfArea splev2One (pdfData c10wCalls [] 0) = 999 := by
  rw [pdfArea_splev2One]
  rw [show (pdfData c10wCalls [] 0).map (fun p => p.1) =
    [0, 111, 222, 333, 444, 555, 666, 777, 888, 999] from rfl]
  have ha : ([0, 111, 222, 333, 444, 555, 666, 777, 888, 999] : List ℚ).foldl min
      (([0, 111, 222, 333, 444, 555, 666, 777, 888, 999] : List ℚ).headD 0) = 0 := by
    norm_num [List.foldl, min_def]
  have hb : ([0, 111, 222, 333, 444, 555, 666, 777, 888, 999] : List ℚ).foldl max
      (([0, 111, 222, 333, 444, 555, 666, 777, 888, 999] : List ℚ).headD 0) = 999 := by
    norm_num [List.foldl, max_def]
  rw [ha, hb, linspace_headD_1000, linspace_getLast_1000]
  norm_num

/-- C10 witness: on ten surviving OTM calls with the constant-curvature
spline oracle, `calculate_pdf` produces a curve, and the theorem instantiated
there yields pointwise non-negativity and unit trapezoidal integral. -/
theorem calculate_pdf_normalized_witness :
    (calculate_pdf splrepOk splev2One c10wCalls [] 0).elim False
      (fun xp => (∀ y ∈ xp.2, 0 ≤ y) ∧ trapz xp.2 xp.1 = 1) := by
  have hmain := calculate_pdf_none_iff_and_normalized splrepOk splev2One c10wCalls [] 0
  have hB : amendedNoneB splrepOk splev2One c10wCalls [] 0 = false := by
    unfold amendedNoneB
    rw [pdfArea_c10w]
    rw [decide_eq_false (by decide : ¬((pdfData c10wCalls [] 0).length < 10))]
    rw [decide_eq_false (by norm_num : ¬((999 : ℚ) = 0))]
    rfl
  cases hsome : calculate_pdf splrepOk splev2One c10wCalls [] 0 with
  | none =>
    have := hmain.1.mp hsome
    rw [hB] at this
    exact Bool.false_ne_true this
  | some xp =>
    obtain ⟨x, pdf⟩ := xp
    simp only [Option.elim]
    exact hmain.2 x pdf hsome
